import Mathlib

/-!
Shallow embedding of the FullSwing capture OCR pipeline
(`src/backend/fullswing/ocr_processor.py`, and the `process_image` view of
`src/backend/fullswing/views.py`), with theorems checking the
specification's claims about it.

Modelling conventions:
* Python strings are Lean `String`s; regex scanning works over `List Char`.
* The `re` character classes are modelled on their ASCII behaviour: `\d` is
  `Char.isDigit` and `\s` is the ASCII whitespace set.
* Python floats are modelled as exact rationals `ℚ`; every numeric literal
  in the pipeline is a small decimal, exactly representable.
* `cv2`, `pytesseract` and the Django persistence layer are external to the
  pipeline: the decode outcome and the recognized text (or engine
  exception) are inputs of the model, and persistence is out of scope.
-/

namespace FullSwing

/-- ASCII behaviour of the regex class `\s`. -/
def isSpaceChar (c : Char) : Bool :=
  c = ' ' || c = '\t' || c = '\n' || c = '\r' || c = '\x0b' || c = '\x0c'

/-- Greedy match of the number part `\d+\.?\d*` at the head of `l`: the
captured characters and the remaining input, or `none` when `l` does not
start with a digit.  In every pattern of the extractor this group is
followed by `\s*` and then either a literal that starts with a
non-digit, non-dot, non-space character, or nothing, so the Python
backtracking engine always commits to this greedy parse. -/
def numTok (l : List Char) : Option (List Char × List Char) :=
  let d1 := l.takeWhile Char.isDigit
  let r1 := l.dropWhile Char.isDigit
  if d1.isEmpty then none
  else if r1.head? = some '.' then
    some (d1 ++ '.' :: r1.tail.takeWhile Char.isDigit, r1.tail.dropWhile Char.isDigit)
  else some (d1, r1)

/-- Strip the literal `lit` from the head of `l`, comparing characters
case-insensitively (the patterns are compiled with `re.IGNORECASE`). -/
def dropLitCI : List Char → List Char → Option (List Char)
  | [], l => some l
  | _ :: _, [] => none
  | a :: as, c :: cs => if a.toLower = c.toLower then dropLitCI as cs else none

/-- One attempt of a unit-suffixed pattern `(\d+\.?\d*)\s*lit` at the head
of `l`: on success, the capture group and the input after the whole match. -/
def unitMatchAt (lit : List Char) (l : List Char) : Option (List Char × List Char) :=
  (numTok l).bind fun p =>
    (dropLitCI lit (p.2.dropWhile isSpaceChar)).map fun rest => (p.1, rest)

/-- One attempt of the generic pattern `(-?\d+\.?\d*)` at the head of `l`.
When `l` starts with `'-'` not followed by a digit, the backtracked attempt
without the sign also fails (`'-'` is not a digit), so the result is `none`. -/
def genMatchAt (l : List Char) : Option (List Char × List Char) :=
  if l.head? = some '-' then (numTok l.tail).map fun p => ('-' :: p.1, p.2)
  else numTok l

/-- `re.findall` scanning: attempt `matchAt` at each position from the left;
on success record the capture and resume after the match, otherwise advance
one character.  `fuel` bounds the recursion; every successful match of the
extractor's patterns consumes at least one character, so `l.length` fuel
is enough. -/
def findallAux (matchAt : List Char → Option (List Char × List Char)) :
    Nat → List Char → List (List Char)
  | 0, _ => []
  | _, [] => []
  | fuel + 1, c :: rest =>
    match matchAt (c :: rest) with
    | some (cap, r) => cap :: findallAux matchAt fuel r
    | none => findallAux matchAt fuel rest

/-- `re.findall pattern l`: the list of captures, leftmost first. -/
def findall (matchAt : List Char → Option (List Char × List Char))
    (l : List Char) : List (List Char) :=
  findallAux matchAt l.length l

/-- Numeric value of a digit string, most significant digit first. -/
def digitsVal (l : List Char) : Nat :=
  l.foldl (fun a c => 10 * a + (c.toNat - '0'.toNat)) 0

/-- Python `float` on an unsigned token: an integer part, an optional
decimal point and fractional part, at least one digit overall. -/
def parseUnsigned (l : List Char) : Option ℚ :=
  let d1 := l.takeWhile Char.isDigit
  let r1 := l.dropWhile Char.isDigit
  if r1.isEmpty then (if d1.isEmpty then none else some (digitsVal d1))
  else if r1.head? = some '.' ∧ r1.tail.dropWhile Char.isDigit = [] ∧
      ¬(d1.isEmpty ∧ r1.tail.isEmpty) then
    some ((digitsVal d1 : ℚ) + (digitsVal r1.tail : ℚ) / (10 : ℚ) ^ r1.tail.length)
  else none

/-- Modelled behaviour of Python's builtin `float` on the token shapes the
extractor can capture: an optional sign, then digits with an optional
decimal point.  `none` models a `ValueError`.  (The further shapes `float`
accepts — exponents, `inf`, `nan`, underscores, surrounding whitespace —
cannot occur as captures of these patterns and are omitted.) -/
def parseFloat? (l : List Char) : Option ℚ :=
  if l.head? = some '-' then (parseUnsigned l.tail).map (fun q => -q)
  else if l.head? = some '+' then parseUnsigned l.tail
  else parseUnsigned l

/-- Single-character `str.replace`. -/
def replaceChar (a b : Char) (l : List Char) : List Char :=
  l.map fun c => if c = a then b else c

/-- Line 47 of `ocr_processor.py`:
`text.replace('O','0').replace('o','0').replace('l','1').replace('I','1')`,
applied left to right. -/
def normalizeChars (l : List Char) : List Char :=
  replaceChar 'I' '1' (replaceChar 'l' '1' (replaceChar 'o' '0' (replaceChar 'O' '0' l)))

/-- The same normalization on `String`s. -/
def normalizeText (s : String) : String :=
  String.mk (normalizeChars s.data)

/-- The unit suffixes of the five unit patterns, in the order the `patterns`
list of `extract_numbers_from_text` evaluates them. -/
def unitLits : List (List Char) :=
  ["mph".data, "ft".data, "°".data, "rpm".data, "/s".data]

/-- The six pattern matchers, in evaluation order: the five unit-suffixed
patterns, then the generic signed-decimal pattern. -/
def patternMatchers : List (List Char → Option (List Char × List Char)) :=
  unitLits.map unitMatchAt ++ [genMatchAt]

/-- All capture-group substrings the six patterns produce on the normalized
text, in pattern evaluation order. -/
def rawCaptures (text : String) : List (List Char) :=
  (patternMatchers.map fun m => findall m (normalizeChars text.data)).flatten

/-- Lines 42–67, `FullSwingOCR.extract_numbers_from_text`: normalize the
text, run the six patterns in order, and append the `float` value of every
capture, silently skipping captures whose conversion raises. -/
def extract_numbers_from_text (text : String) : List ℚ :=
  (patternMatchers.map fun m =>
    (findall m (normalizeChars text.data)).filterMap parseFloat?).flatten

/-- The OLED layout's field names, in the declared (dict-literal) order of
lines 78–83. -/
def oledFieldNames : List String :=
  ["ball_speed", "club_head_speed", "carry_distance", "total_distance"]

/-- Lines 78–83: the OLED result dict; entry `i` is
`numbers[i] if len(numbers) > i else None`. -/
def oledMapping (numbers : List ℚ) : List (String × Option ℚ) :=
  [("ball_speed", numbers[0]?),
   ("club_head_speed", numbers[1]?),
   ("carry_distance", numbers[2]?),
   ("total_distance", numbers[3]?)]

/-- Line 85: the OLED confidence score `len(numbers) / 4.0`. -/
def oledConfidence (numbers : List ℚ) : ℚ :=
  (numbers.length : ℚ) / 4

/-- Lines 96–101: the iPad (tablet) layout's field names in declared order. -/
def ipadFields : List String :=
  ["ball_speed", "club_head_speed", "smash_factor", "carry_distance",
   "total_distance", "launch_angle", "spin_rate", "side_spin",
   "angle_of_attack", "club_path", "face_angle", "dynamic_loft",
   "impact_height", "impact_toe", "ball_height", "descent_angle"]

/-- Lines 103–105: `result[field] = numbers[i] if len(numbers) > i else None`
for each `(i, field)` in `enumerate(fields)`; Python dicts keep insertion
order, so the mapping is the ordered association list. -/
def ipadMapping (numbers : List ℚ) : List (String × Option ℚ) :=
  ipadFields.enum.map fun p => (p.2, numbers[p.1]?)

/-- Line 107: the iPad confidence `min(1.0, len(numbers) / len(fields))`. -/
def ipadConfidence (numbers : List ℚ) : ℚ :=
  min 1 ((numbers.length : ℚ) / (ipadFields.length : ℚ))

/-- Number of non-null entries of a field mapping. -/
def countPopulated (m : List (String × Option ℚ)) : Nat :=
  (m.filter fun p => p.2.isSome).length

/-- Follows the spec's words (§4.5 ConfidenceScorer): `count / expected`,
capped at 1.0. -/
def specConfidence (count expected : Nat) : ℚ :=
  min 1 ((count : ℚ) / (expected : ℚ))

/-- Outcome of a Python call: a normal return, or a raised exception carrying
its `str(e)` rendering. -/
inductive PyResult (α : Type) where
  | ok (val : α)
  | exn (msg : String)
deriving DecidableEq

/-- A decoded image; pixel content is irrelevant to every claim, only the
identity of the image is kept. -/
structure RawImage where
  tag : Nat
deriving DecidableEq

/-- The message of the `cv2.error` that `cv2.cvtColor` raises when its input
is `None` (external library behaviour, message text abbreviated). -/
def cvtColorNoneMsg : String :=
  "cv2.error: !_src.empty() in function cvtColor"

/-- Environment for one image: what the external libraries return.
`decode` is the result of `cv2.imread` (`none` = undecodable bytes), `ocr`
the outcome of `pytesseract.image_to_string` on the preprocessed image. -/
structure OcrEnv where
  decode : Option RawImage
  ocr : PyResult String

/-- Lines 13–39, `preprocess_image`: `cv2.imread` yields `None` for
unreadable input and the next call `cv2.cvtColor(None, ...)` raises;
otherwise the cv2 chain (grayscale, bilateral filter, adaptive threshold,
closing, conditional resize) yields a processed image, modelled abstractly
since no claim depends on pixel content. -/
def preprocess_image (decoded : Option RawImage) : PyResult RawImage :=
  match decoded with
  | none => PyResult.exn cvtColorNoneMsg
  | some img => PyResult.ok img

/-- Lines 69–85, `process_oled_display`: preprocess, recognize text, extract
numbers, and return the mapping, the raw text and the confidence score.
An exception of either external stage propagates. -/
def process_oled_display (env : OcrEnv) :
    PyResult (List (String × Option ℚ) × String × ℚ) :=
  match preprocess_image env.decode with
  | PyResult.exn m => PyResult.exn m
  | PyResult.ok _ =>
    match env.ocr with
    | PyResult.exn m => PyResult.exn m
    | PyResult.ok text =>
      let numbers := extract_numbers_from_text text
      PyResult.ok (oledMapping numbers, text, oledConfidence numbers)

/-- Lines 87–107, `process_ipad_display`: the same pipeline with the tablet
layout. -/
def process_ipad_display (env : OcrEnv) :
    PyResult (List (String × Option ℚ) × String × ℚ) :=
  match preprocess_image env.decode with
  | PyResult.exn m => PyResult.exn m
  | PyResult.ok _ =>
    match env.ocr with
    | PyResult.exn m => PyResult.exn m
    | PyResult.ok text =>
      let numbers := extract_numbers_from_text text
      PyResult.ok (ipadMapping numbers, text, ipadConfidence numbers)

/-- What the caller of the `process_image` view observes: either a success
response with data, confidence and raw text, or the HTTP 500 error response. -/
inductive ApiResponse where
  | success (data : List (String × Option ℚ)) (confidence : ℚ) (rawText : String)
  | errorResponse (msg : String)
deriving DecidableEq

/-- `views.process_image`, lines 39–68 (OCR part; session/shot persistence is
out of scope): dispatch on the display type, and catch any exception of the
processing stages, surfacing it as the generic
`'Processing failed: ' + str(e)` 500 response with no data and no
confidence. -/
def process_image (displayType : String) (env : OcrEnv) : ApiResponse :=
  match (if displayType = "oled" then process_oled_display env
         else process_ipad_display env) with
  | PyResult.ok (data, text, conf) => ApiResponse.success data conf text
  | PyResult.exn m => ApiResponse.errorResponse ("Processing failed: " ++ m)

/-- `FullSwingOCR.__init__`, lines 9–11: the only attribute ever assigned is
the tesseract configuration string. -/
structure FullSwingOCR where
  config : String
deriving DecidableEq

/-- The constructed pipeline object. -/
def initOCR : FullSwingOCR :=
  ⟨"--oem 3 --psm 6 -c tessedit_char_whitelist=0123456789.-+mph°ft/s"⟩

/-- The method call `self.extract_numbers_from_text(text)` as a state
transformer: the body reads only `text` and assigns no attribute of `self`,
so the post-call object state is the receiver unchanged. -/
def extractMethod (self : FullSwingOCR) (text : String) :
    FullSwingOCR × List ℚ :=
  (self, extract_numbers_from_text text)

/-! ### Helper lemmas -/

/-- Pointwise action of the four chained `str.replace` calls on one
character (the replacement characters `0`, `1` are untouched by the later
replaces, so the chain acts as this single case split). -/
def normChar (c : Char) : Char :=
  if c = 'O' then '0'
  else if c = 'o' then '0'
  else if c = 'l' then '1'
  else if c = 'I' then '1'
  else c

theorem normalizeChars_eq_map : ∀ l : List Char, normalizeChars l = l.map normChar
  | [] => rfl
  | c :: cs => by
    have ih := normalizeChars_eq_map cs
    simp only [normalizeChars, replaceChar, List.map_cons] at ih ⊢
    rw [ih]
    congr 1
    by_cases h1 : c = 'O'
    · subst h1; decide
    by_cases h2 : c = 'o'
    · subst h2; decide
    by_cases h3 : c = 'l'
    · subst h3; decide
    by_cases h4 : c = 'I'
    · subst h4; decide
    simp [normChar, h1, h2, h3, h4]

theorem normChar_idem (c : Char) : normChar (normChar c) = normChar c := by
  by_cases h1 : c = 'O'
  · subst h1; decide
  by_cases h2 : c = 'o'
  · subst h2; decide
  by_cases h3 : c = 'l'
  · subst h3; decide
  by_cases h4 : c = 'I'
  · subst h4; decide
  simp [normChar, h1, h2, h3, h4]

theorem map_normChar_idem : ∀ l : List Char, (l.map normChar).map normChar = l.map normChar
  | [] => rfl
  | c :: cs => by
    rw [List.map_cons, List.map_cons, normChar_idem c, map_normChar_idem cs]

theorem isSome_getElem?_eq (l : List ℚ) (i : Nat) :
    (l[i]?).isSome = decide (i < l.length) := by
  rw [List.getElem?_eq]
  split <;> simp_all

/-- The OLED dict literal coincides with positional assignment over the
enumerated field list. -/
theorem oledMapping_enum (ns : List ℚ) :
    oledMapping ns = oledFieldNames.enum.map fun p => (p.2, ns[p.1]?) := rfl

/-- Positional population count: with `fields` enumerated from index `k`,
exactly the indices below the sequence length are populated. -/
theorem countPop_enumFrom (fields : List String) (ns : List ℚ) (k : Nat) :
    (((fields.enumFrom k).map fun p => (p.2, ns[p.1]?)).filter fun p => p.2.isSome).length
      = min (ns.length - k) fields.length := by
  induction fields generalizing k with
  | nil => simp
  | cons f fs ih =>
    rw [List.enumFrom_cons, List.map_cons, List.filter_cons]
    by_cases h : k < ns.length
    · have hs : ((f, ns[k]?).2.isSome) = true := by
        simp [isSome_getElem?_eq, h]
      rw [hs]
      simp only [if_true, List.length_cons, ih]
      omega
    · have hs : ((f, ns[k]?).2.isSome) = false := by
        simp only [isSome_getElem?_eq]
        simp [h]
      rw [hs]
      simp only [Bool.false_eq_true, if_false, ih]
      omega

theorem countPopulated_oled (ns : List ℚ) :
    countPopulated (oledMapping ns) = min ns.length 4 := by
  have h := countPop_enumFrom oledFieldNames ns 0
  rw [countPopulated, oledMapping_enum, List.enum]
  rw [h]
  simp [oledFieldNames]

theorem countPopulated_ipad (ns : List ℚ) :
    countPopulated (ipadMapping ns) = min ns.length 16 := by
  have h := countPop_enumFrom ipadFields ns 0
  rw [countPopulated, ipadMapping, List.enum, h]
  simp [ipadFields]

/-- The spec's capped score at the positional population count, as a
function of the raw sequence length. -/
theorem specConfidence_min (len e : Nat) (he : 0 < e) :
    specConfidence (min len e) e = min 1 ((len : ℚ) / (e : ℚ)) := by
  have he' : (0 : ℚ) < (e : ℚ) := by exact_mod_cast he
  rcases le_total len e with h | h
  · rw [min_eq_left h]; rfl
  · rw [min_eq_right h]
    unfold specConfidence
    rw [div_self (ne_of_gt he'), min_self]
    rw [eq_comm, min_eq_left_iff, one_le_div he']
    exact_mod_cast h

/-- All fields populated when the sequence covers the enumerated suffix. -/
theorem all_isSome_enumFrom (fields : List String) (ns : List ℚ) (k : Nat)
    (h : k + fields.length ≤ ns.length) :
    ((fields.enumFrom k).map fun p => (p.2, ns[p.1]?)).all (fun p => p.2.isSome) = true := by
  induction fields generalizing k with
  | nil => simp
  | cons f fs ih =>
    rw [List.enumFrom_cons, List.map_cons, List.all_cons]
    have h1 : ((f, ns[k]?).2.isSome) = true := by
      simp only [isSome_getElem?_eq]
      simp only [List.length_cons] at h
      simp only [decide_eq_true_eq]
      omega
    rw [h1, Bool.true_and]
    apply ih
    simp only [List.length_cons] at h
    omega

/-! ### Claims -/

/-- C8: the character-normalization step (line 47: `O`/`o` to `0`, `l`/`I`
to `1`) is idempotent — applying it to already-normalized text yields the
same text. -/
theorem C8_normalization_idempotent (s : String) :
    normalizeText (normalizeText s) = normalizeText s := by
  have key : ∀ l : List Char, normalizeChars (normalizeChars l) = normalizeChars l := by
    intro l
    rw [normalizeChars_eq_map, normalizeChars_eq_map]
    exact map_normChar_idem l
  show String.mk (normalizeChars (normalizeChars s.data)) = String.mk (normalizeChars s.data)
  rw [key]

/-- C9: the extraction stage is stateless and deterministic — any two
invocations of `extract_numbers_from_text`, on the same or different
pipeline objects, return equal sequences; the receiver is unchanged by the
call; and the only configuration, the tesseract character whitelist set in
`__init__`, is the fixed string below. -/
theorem C9_extraction_stateless (s1 s2 : FullSwingOCR) (text : String) :
    (extractMethod s1 text).2 = (extractMethod s2 text).2 ∧
    (extractMethod s1 text).1 = s1 ∧
    initOCR.config = "--oem 3 --psm 6 -c tessedit_char_whitelist=0123456789.-+mph°ft/s" :=
  ⟨rfl, rfl, rfl⟩

/-- C2: for every numeric sequence and both layouts, the mapping's keys are
exactly the layout's field names in declared order, and the i-th field is
assigned the i-th sequence element when the sequence has more than i
elements, else null. -/
theorem C2_positional_mapping (ns : List ℚ) :
    (oledMapping ns).map Prod.fst = oledFieldNames ∧
    (ipadMapping ns).map Prod.fst = ipadFields ∧
    oledMapping ns = (oledFieldNames.enum.map fun p =>
      (p.2, if h : p.1 < ns.length then some (ns.get ⟨p.1, h⟩) else none)) ∧
    ipadMapping ns = (ipadFields.enum.map fun p =>
      (p.2, if h : p.1 < ns.length then some (ns.get ⟨p.1, h⟩) else none)) := by
  have key : ∀ i : Nat, ns[i]? = if h : i < ns.length then some (ns.get ⟨i, h⟩) else none := by
    intro i
    rw [List.getElem?_eq]
    split <;> rfl
  refine ⟨rfl, ?_, ?_, ?_⟩
  · rfl
  · rw [oledMapping_enum]
    exact List.map_congr_left fun p _ => by rw [key p.1]
  · rw [ipadMapping]
    exact List.map_congr_left fun p _ => by rw [key p.1]

/-- C7: the empty numeric sequence yields all-null fields and confidence
exactly 0.0, for both layouts. -/
theorem C7_empty_sequence :
    (oledMapping []).all (fun p => p.2.isNone) = true ∧
    oledConfidence [] = 0 ∧
    (ipadMapping []).all (fun p => p.2.isNone) = true ∧
    ipadConfidence [] = 0 := by
  refine ⟨by decide, ?_, by decide, ?_⟩
  · simp [oledConfidence]
  · simp [ipadConfidence]

/-- C1 counterexample: for the OLED layout and a 5-element sequence the
returned confidence is `5/4`: it exceeds 1.0, while the spec's capped
populated-fraction is 1. -/
theorem C1_counterexample :
    oledConfidence [0, 0, 0, 0, 0] = 5 / 4 ∧
    specConfidence (countPopulated (oledMapping [0, 0, 0, 0, 0])) 4 = 1 ∧
    1 < oledConfidence [0, 0, 0, 0, 0] := by
  have hc : countPopulated (oledMapping [0, 0, 0, 0, 0]) = 4 := by decide
  refine ⟨by norm_num [oledConfidence], ?_, by norm_num [oledConfidence]⟩
  rw [hc]
  norm_num [specConfidence]

/-- C1 amended: for the TABLET layout the returned confidence equals the
spec's capped populated-fraction and lies in [0,1]; for the OLED layout the
code returns `len(numbers)/4.0` uncapped, which agrees with the capped
populated-fraction (and lies in [0,1]) exactly when the sequence has at
most 4 elements, and exceeds 1.0 whenever it has more. -/
theorem C1_confidence_amended (ns : List ℚ) :
    ipadConfidence ns = specConfidence (countPopulated (ipadMapping ns)) 16 ∧
    0 ≤ ipadConfidence ns ∧ ipadConfidence ns ≤ 1 ∧
    oledConfidence ns = (ns.length : ℚ) / 4 ∧
    (ns.length ≤ 4 →
      oledConfidence ns = specConfidence (countPopulated (oledMapping ns)) 4 ∧
      0 ≤ oledConfidence ns ∧ oledConfidence ns ≤ 1) ∧
    (4 < ns.length → 1 < oledConfidence ns) := by
  refine ⟨?_, ?_, ?_, rfl, ?_, ?_⟩
  · rw [countPopulated_ipad, specConfidence_min ns.length 16 (by norm_num)]
    rfl
  · exact le_min zero_le_one (by positivity)
  · exact min_le_left _ _
  · intro h
    rw [countPopulated_oled, specConfidence_min ns.length 4 (by norm_num)]
    have hcast : ((4 : ℕ) : ℚ) = 4 := by norm_num
    rw [hcast]
    have h4 : (ns.length : ℚ) / 4 ≤ 1 := by
      rw [div_le_one (by norm_num : (0 : ℚ) < 4)]
      exact_mod_cast h
    refine ⟨?_, ?_, h4⟩
    · rw [min_eq_right h4]
      rfl
    · show (0 : ℚ) ≤ (ns.length : ℚ) / 4
      positivity
  · intro h
    show 1 < (ns.length : ℚ) / 4
    rw [one_lt_div (by norm_num : (0 : ℚ) < 4)]
    exact_mod_cast h

theorem C1_confidence_amended_witness :
    (oledConfidence [1, 2, 3] = specConfidence (countPopulated (oledMapping [1, 2, 3])) 4 ∧
      0 ≤ oledConfidence [1, 2, 3] ∧ oledConfidence [1, 2, 3] ≤ 1) ∧
    1 < oledConfidence [9, 9, 9, 9, 9, 9, 9] :=
  ⟨(C1_confidence_amended [1, 2, 3]).2.2.2.2.1 (by decide),
   (C1_confidence_amended [9, 9, 9, 9, 9, 9, 9]).2.2.2.2.2 (by decide)⟩

/-- C3 counterexample: a 6-element sequence fills every OLED field, but the
returned confidence is `6/4`, strictly above the claimed 1.0. -/
theorem C3_counterexample :
    4 ≤ ([1, 1, 1, 1, 1, 1] : List ℚ).length ∧
    (oledMapping [1, 1, 1, 1, 1, 1]).all (fun p => p.2.isSome) = true ∧
    1 < oledConfidence [1, 1, 1, 1, 1, 1] := by
  refine ⟨by decide, by decide, by norm_num [oledConfidence]⟩

/-- C3 amended: a sequence at least as long as the layout fills every field
in both layouts; the TABLET confidence is then exactly 1.0, but the OLED
confidence is `len/4`, equal to 1.0 only when the length is exactly 4 and
strictly above 1.0 otherwise. -/
theorem C3_full_sequence_amended (ns : List ℚ) :
    (16 ≤ ns.length →
      (ipadMapping ns).all (fun p => p.2.isSome) = true ∧ ipadConfidence ns = 1) ∧
    (4 ≤ ns.length →
      (oledMapping ns).all (fun p => p.2.isSome) = true ∧
      (ns.length = 4 → oledConfidence ns = 1) ∧
      (4 < ns.length → 1 < oledConfidence ns)) := by
  constructor
  · intro h
    constructor
    · have key := all_isSome_enumFrom ipadFields ns 0 (by simpa [ipadFields] using h)
      simpa [ipadMapping, List.enum] using key
    · have h16 : (1 : ℚ) ≤ (ns.length : ℚ) / 16 := by
        rw [one_le_div (by norm_num : (0 : ℚ) < 16)]
        exact_mod_cast h
      show min 1 ((ns.length : ℚ) / (ipadFields.length : ℚ)) = 1
      have hcast : ((ipadFields.length : ℕ) : ℚ) = 16 := by norm_num [ipadFields]
      rw [hcast]
      exact min_eq_left h16
  · intro h
    refine ⟨?_, ?_, ?_⟩
    · have key := all_isSome_enumFrom oledFieldNames ns 0 (by simpa [oledFieldNames] using h)
      rw [oledMapping_enum, List.enum]
      simpa using key
    · intro h4
      show (ns.length : ℚ) / 4 = 1
      rw [h4]
      norm_num
    · intro h4
      show 1 < (ns.length : ℚ) / 4
      rw [one_lt_div (by norm_num : (0 : ℚ) < 4)]
      exact_mod_cast h4

theorem C3_full_sequence_amended_witness :
    ((ipadMapping (List.replicate 16 (2 : ℚ))).all (fun p => p.2.isSome) = true ∧
      ipadConfidence (List.replicate 16 (2 : ℚ)) = 1) ∧
    oledConfidence [1, 2, 3, 4] = 1 ∧
    1 < oledConfidence [1, 2, 3, 4, 5] :=
  ⟨(C3_full_sequence_amended (List.replicate 16 (2 : ℚ))).1 (by decide),
   ((C3_full_sequence_amended [1, 2, 3, 4]).2 (by decide)).2.1 (by decide),
   ((C3_full_sequence_amended [1, 2, 3, 4, 5]).2 (by decide)).2.2 (by decide)⟩

/-- The extractor is the float-parse of the capture stream. -/
theorem extract_eq_filterMap (text : String) :
    extract_numbers_from_text text = (rawCaptures text).filterMap parseFloat? := by
  rw [extract_numbers_from_text, rawCaptures, List.filterMap_flatten, List.map_map]
  rfl

/-- C4: the extractor's output is the concatenation, in evaluation order, of
the parsed matches of the five unit-suffixed patterns (mph, ft, °, rpm, /s)
over the normalized text, followed by those of the generic signed-decimal
pattern, with no deduplication; concretely, on `"85.3 mph 112.mph"` both
unit-matched numbers recur through the generic pattern and appear twice. -/
theorem C4_pattern_order (text : String) :
    extract_numbers_from_text text =
      (findall (unitMatchAt "mph".data) (normalizeChars text.data)).filterMap parseFloat? ++
      (findall (unitMatchAt "ft".data) (normalizeChars text.data)).filterMap parseFloat? ++
      (findall (unitMatchAt "°".data) (normalizeChars text.data)).filterMap parseFloat? ++
      (findall (unitMatchAt "rpm".data) (normalizeChars text.data)).filterMap parseFloat? ++
      (findall (unitMatchAt "/s".data) (normalizeChars text.data)).filterMap parseFloat? ++
      (findall genMatchAt (normalizeChars text.data)).filterMap parseFloat? ∧
    extract_numbers_from_text "85.3 mph 112.mph" = [853 / 10, 112, 853 / 10, 112] := by
  constructor
  · simp [extract_numbers_from_text, patternMatchers, unitLits, List.append_assoc]
  · rw [extract_eq_filterMap]
    have h1 : rawCaptures "85.3 mph 112.mph" =
        [['8', '5', '.', '3'], ['1', '1', '2', '.'],
         ['8', '5', '.', '3'], ['1', '1', '2', '.']] := by decide
    rw [h1]
    simp [List.filterMap, parseFloat?, parseUnsigned, digitsVal]
    norm_num

/-- C5 counterexample: the text consisting exactly of the two-decimal-point
token `"1.2.3"` does contribute values to the sequence — the generic
pattern splits the malformed token instead of excluding it. -/
theorem C5_counterexample :
    extract_numbers_from_text "1.2.3" = [6 / 5, 3] := by
  rw [extract_eq_filterMap]
  have h1 : rawCaptures "1.2.3" = [['1', '.', '2'], ['3']] := by decide
  rw [h1]
  simp [List.filterMap, parseFloat?, parseUnsigned, digitsVal]
  norm_num

/-- C5 amended: a token with two decimal points is not excluded: no single
capture spans it, but the generic pattern matches its pieces — the prefix
through the digits after the first dot, and the digit run after the second
dot — so `"1.2.3"` contributes `1.2` and `3.0`, also inside larger text. -/
theorem C5_two_decimal_points_amended :
    rawCaptures "1.2.3" = [['1', '.', '2'], ['3']] ∧
    extract_numbers_from_text "1.2.3 mph" = [23 / 10, 6 / 5, 3] := by
  refine ⟨by decide, ?_⟩
  rw [extract_eq_filterMap]
  have h1 : rawCaptures "1.2.3 mph" = [['2', '.', '3'], ['1', '.', '2'], ['3']] := by decide
  rw [h1]
  simp [List.filterMap, parseFloat?, parseUnsigned, digitsVal]
  norm_num

/-- C6 counterexample: an undecodable image yields the very same generic
`Processing failed` error response as an OCR-engine failure raising the
same message — the code carries no distinct ImageDecodeError
classification (an error response is produced, with no reading: see the
amended theorem). -/
theorem C6_counterexample :
    process_image "oled" ⟨none, PyResult.ok "any text"⟩ =
      process_image "oled" ⟨some ⟨0⟩, PyResult.exn cvtColorNoneMsg⟩ ∧
    process_image "oled" ⟨none, PyResult.ok "any text"⟩ =
      ApiResponse.errorResponse ("Processing failed: " ++ cvtColorNoneMsg) :=
  ⟨rfl, rfl⟩

/-- C6 amended: for every undecodable input (`cv2.imread` yields None),
whatever the display type and whatever the OCR stage would return, the view
replies with the generic processing-failure response carrying the decode
exception's text — not a distinct ImageDecodeError classification — and no
ShotReading (no field mapping, no confidence score) is produced. -/
theorem C6_undecodable_amended (displayType : String) (o : PyResult String) :
    process_image displayType ⟨none, o⟩ =
      ApiResponse.errorResponse ("Processing failed: " ++ cvtColorNoneMsg) := by
  rw [process_image]
  by_cases h : displayType = "oled" <;>
    simp [h, process_oled_display, process_ipad_display, preprocess_image]

/-! ### Shape of the captures, for C10 -/

/-- Every capture `numTok` produces is a nonempty digit run, optionally
followed by a dot and a second digit run. -/
theorem numTok_shape (l cap r : List Char) (h : numTok l = some (cap, r)) :
    ∃ d1 tl, cap = d1 ++ tl ∧ d1 ≠ [] ∧ (∀ c ∈ d1, c.isDigit = true) ∧
      (tl = [] ∨ ∃ d2, tl = '.' :: d2 ∧ ∀ c ∈ d2, c.isDigit = true) := by
  simp only [numTok] at h
  have hdig : ∀ c ∈ l.takeWhile Char.isDigit, c.isDigit = true :=
    fun c hc => List.mem_takeWhile_imp hc
  split_ifs at h with h1 h2
  · have hne : l.takeWhile Char.isDigit ≠ [] :=
      fun hnil => h1 (by rw [hnil]; rfl)
    simp only [Option.some_inj, Prod.mk.injEq] at h
    exact ⟨l.takeWhile Char.isDigit,
      '.' :: (l.dropWhile Char.isDigit).tail.takeWhile Char.isDigit, h.1.symm, hne, hdig,
      Or.inr ⟨_, rfl, fun x hx => List.mem_takeWhile_imp hx⟩⟩
  · have hne : l.takeWhile Char.isDigit ≠ [] :=
      fun hnil => h1 (by rw [hnil]; rfl)
    simp only [Option.some_inj, Prod.mk.injEq] at h
    exact ⟨l.takeWhile Char.isDigit, [], by simp [h.1.symm], hne, hdig, Or.inl rfl⟩

/-- `float` accepts every string of the shape `numTok` captures. -/
theorem parseUnsigned_isSome_of_shape (d1 tl : List Char) (h1 : d1 ≠ [])
    (hd : ∀ c ∈ d1, c.isDigit = true)
    (htl : tl = [] ∨ ∃ d2, tl = '.' :: d2 ∧ ∀ c ∈ d2, c.isDigit = true) :
    (parseUnsigned (d1 ++ tl)).isSome = true := by
  have hemp : d1.isEmpty = false := by
    cases d1 with
    | nil => exact absurd rfl h1
    | cons a as => rfl
  rcases htl with rfl | ⟨d2, rfl, hd2⟩
  · simp only [List.append_nil, parseUnsigned]
    rw [List.takeWhile_eq_self_iff.mpr hd, List.dropWhile_eq_nil_iff.mpr hd]
    simp [hemp]
  · simp only [parseUnsigned]
    rw [List.takeWhile_append_of_pos hd, List.dropWhile_append_of_pos hd]
    have hdot : Char.isDigit '.' = false := rfl
    rw [List.takeWhile_cons, List.dropWhile_cons, hdot]
    simp only [Bool.false_eq_true, if_false, List.append_nil]
    rw [if_neg (by simp : ¬(('.' :: d2).isEmpty = true))]
    rw [if_pos ⟨rfl, by simpa using List.dropWhile_eq_nil_iff.mpr hd2, by simp [hemp]⟩]
    rfl

/-- The capture of `numTok` starts with a digit, so `parseFloat?` neither
sees a sign nor fails: the conversion succeeds. -/
theorem parseFloat?_isSome_of_numTok (l cap r : List Char)
    (h : numTok l = some (cap, r)) : (parseFloat? cap).isSome = true := by
  obtain ⟨d1, tl, hcap, hne, hdig, htl⟩ := numTok_shape l cap r h
  have hu : (parseUnsigned (d1 ++ tl)).isSome = true :=
    parseUnsigned_isSome_of_shape d1 tl hne hdig htl
  subst hcap
  rcases d1 with _ | ⟨c, cs⟩
  · exact absurd rfl hne
  have hc : c.isDigit = true := hdig c (List.mem_cons_self c cs)
  have hm : (c :: (cs ++ tl)).head? = some c := List.head?_cons
  have hcm : ¬(some c = some '-') := by
    intro hq
    rw [Option.some_inj] at hq
    subst hq
    exact absurd hc (by decide)
  have hcp : ¬(some c = some '+') := by
    intro hq
    rw [Option.some_inj] at hq
    subst hq
    exact absurd hc (by decide)
  show (parseFloat? (c :: (cs ++ tl))).isSome = true
  rw [parseFloat?, hm, if_neg hcm, if_neg hcp]
  exact hu

/-- Every capture of a unit-suffixed pattern converts. -/
theorem unitMatchAt_parse (lit : List Char) :
    ∀ l cap r, unitMatchAt lit l = some (cap, r) → (parseFloat? cap).isSome = true := by
  intro l cap r h
  rw [unitMatchAt] at h
  rcases hn : numTok l with _ | ⟨cap0, r0⟩
  · rw [hn, Option.none_bind] at h
    exact absurd h (by simp)
  · rw [hn, Option.some_bind] at h
    rcases hd : dropLitCI lit (r0.dropWhile isSpaceChar) with _ | rest
    · rw [hd] at h
      exact absurd h (by simp)
    · rw [hd, Option.map_some'] at h
      simp only [Option.some_inj, Prod.mk.injEq] at h
      exact h.1 ▸ parseFloat?_isSome_of_numTok l cap0 r0 hn

/-- Every capture of the generic signed-decimal pattern converts. -/
theorem genMatchAt_parse :
    ∀ l cap r, genMatchAt l = some (cap, r) → (parseFloat? cap).isSome = true := by
  intro l cap r h
  rw [genMatchAt] at h
  by_cases hc : l.head? = some '-'
  · rw [if_pos hc] at h
    rcases hn : numTok l.tail with _ | ⟨cap0, rest0⟩
    · rw [hn, Option.map_none'] at h
      exact absurd h (by simp)
    · rw [hn, Option.map_some'] at h
      simp only [Option.some_inj, Prod.mk.injEq] at h
      obtain ⟨d1, tl, hcap, hne, hdig, htl⟩ := numTok_shape l.tail cap0 rest0 hn
      have hu : (parseUnsigned (d1 ++ tl)).isSome = true :=
        parseUnsigned_isSome_of_shape d1 tl hne hdig htl
      rw [← h.1, parseFloat?]
      rw [if_pos (by rw [List.head?_cons])]
      rw [List.tail_cons, hcap]
      rw [Option.isSome_map']
      exact hu
  · rw [if_neg hc] at h
    exact parseFloat?_isSome_of_numTok l cap r h

/-- Any property preserved by every match of `matchAt` holds for all
captures `findallAux` collects. -/
theorem findallAux_forall (matchAt : List Char → Option (List Char × List Char))
    (P : List Char → Prop)
    (hm : ∀ l cap r, matchAt l = some (cap, r) → P cap) :
    ∀ fuel l, ∀ cap ∈ findallAux matchAt fuel l, P cap := by
  intro fuel
  induction fuel with
  | zero =>
    intro l cap hc
    simp [findallAux] at hc
  | succ n ih =>
    intro l cap hc
    cases l with
    | nil => simp [findallAux] at hc
    | cons c rest =>
      rw [findallAux] at hc
      rcases hma : matchAt (c :: rest) with _ | ⟨cap0, r0⟩
      · rw [hma] at hc
        exact ih rest cap hc
      · rw [hma] at hc
        rcases List.mem_cons.mp hc with rfl | hmem
        · exact hm (c :: rest) cap r0 hma
        · exact ih r0 cap hmem

/-- Every capture in the stream converts to a float. -/
theorem rawCaptures_parse (text : String) :
    ∀ cap ∈ rawCaptures text, (parseFloat? cap).isSome = true := by
  intro cap hc
  rw [rawCaptures, List.mem_flatten] at hc
  obtain ⟨sub, hsub, hcap⟩ := hc
  rw [List.mem_map] at hsub
  obtain ⟨m, hm, rfl⟩ := hsub
  have h6 : m = unitMatchAt "mph".data ∨ m = unitMatchAt "ft".data ∨
      m = unitMatchAt "°".data ∨ m = unitMatchAt "rpm".data ∨
      m = unitMatchAt "/s".data ∨ m = genMatchAt := by
    simpa [patternMatchers, unitLits] using hm
  rw [findall] at hcap
  rcases h6 with rfl | rfl | rfl | rfl | rfl | rfl
  · exact findallAux_forall _ _ (unitMatchAt_parse _) _ _ cap hcap
  · exact findallAux_forall _ _ (unitMatchAt_parse _) _ _ cap hcap
  · exact findallAux_forall _ _ (unitMatchAt_parse _) _ _ cap hcap
  · exact findallAux_forall _ _ (unitMatchAt_parse _) _ _ cap hcap
  · exact findallAux_forall _ _ (unitMatchAt_parse _) _ _ cap hcap
  · exact findallAux_forall _ _ genMatchAt_parse _ _ cap hcap

theorem length_filterMap_of_isSome {α β : Type} (f : α → Option β) :
    ∀ l : List α, (∀ x ∈ l, (f x).isSome = true) → (l.filterMap f).length = l.length := by
  intro l
  induction l with
  | nil => simp
  | cons x xs ih =>
    intro h
    rcases ho : f x with _ | v
    · exact absurd (h x (List.mem_cons_self x xs)) (by simp [ho])
    · rw [List.filterMap_cons, ho]
      simp only [List.length_cons]
      rw [ih fun y hy => h y (List.mem_cons_of_mem _ hy)]

/-- C10: every substring captured by any of the six patterns converts
successfully to a float, so the silent-drop branch for failed conversion is
unreachable: the extractor never discards a capture and returns exactly
one value per capture. -/
theorem C10_conversion_never_fails (text : String) :
    (∀ cap ∈ rawCaptures text, (parseFloat? cap).isSome = true) ∧
    (extract_numbers_from_text text).length = (rawCaptures text).length := by
  refine ⟨rawCaptures_parse text, ?_⟩
  rw [extract_eq_filterMap]
  exact length_filterMap_of_isSome parseFloat? _ (rawCaptures_parse text)

theorem C10_conversion_never_fails_witness :
    (parseFloat? ['1']).isSome = true ∧
    (extract_numbers_from_text "1mph").length = (rawCaptures "1mph").length :=
  ⟨(C10_conversion_never_fails "1mph").1 ['1'] (by decide),
   (C10_conversion_never_fails "1mph").2⟩

end FullSwing
